import Mathlib

/-!
Verification of the incremental-sync core of `webotron/bucket.py`
(`BucketManager`): the ETag fingerprint engine (`gen_etag` / `hash_data`),
the manifest cache (`load_manifest`), the upload-skip decision
(`upload_file`), bucket initialization (`init_bucket`) and the directory
walker (`sync` / `handle_directory`).

Bytes are modelled as `Nat` values (reduced mod 256 where they are packed
into words), file contents as `List Nat`, and Python dicts as association
lists in insertion order (first binding wins on lookup, as dicts have
unique keys).
-/

set_option maxRecDepth 10000

namespace Webotron

/-! ### MD5 (model of Python's `hashlib.md5`)

`gen_etag` hashes each chunk with MD5.  We embed the full MD5 algorithm
(RFC 1321) over byte lists so fingerprints can be computed and compared
on concrete inputs. 32-bit machine words are `Nat`s reduced mod 2^32. -/

def w32 (n : Nat) : Nat := n % 4294967296

/-- Left-rotate a 32-bit word by `s` places (0 ≤ s < 32). -/
def rotl32 (x s : Nat) : Nat :=
  w32 (Nat.lor (Nat.shiftLeft (w32 x) s) (Nat.shiftRight (w32 x) (32 - s)))

/-- Little-endian value of a byte list (each byte taken mod 256). -/
def leVal : List Nat → Nat
  | [] => 0
  | b :: t => b % 256 + 256 * leVal t

/-- The `k` little-endian bytes of `n`. -/
def leBytes : Nat → Nat → List Nat
  | 0, _ => []
  | k + 1, n => (n % 256) :: leBytes k (n / 256)

/-- Split a list into consecutive pieces of `s` elements (last may be
shorter); zero `s` yields no pieces, mirroring the `f.read(CHUNK_SIZE)`
loop of `gen_etag` which stops as soon as a read returns no data.
Structural on a fuel argument so that the kernel can evaluate it. -/
def chunksOfF (s : Nat) : Nat → List Nat → List (List Nat)
  | 0, _ => []
  | fuel + 1, c =>
    if (c.take s).isEmpty then []
    else c.take s :: chunksOfF s fuel (c.drop s)

def chunksOf (s : Nat) (c : List Nat) : List (List Nat) :=
  chunksOfF s c.length c

/-- MD5 round functions F, G, H, I. -/
def mF (b c d : Nat) : Nat := Nat.lor (Nat.land b c) (Nat.land (Nat.xor b 4294967295) d)

def mG (b c d : Nat) : Nat := Nat.lor (Nat.land d b) (Nat.land (Nat.xor d 4294967295) c)

def mH (b c d : Nat) : Nat := Nat.xor b (Nat.xor c d)

def mI (b c d : Nat) : Nat := Nat.xor c (Nat.lor b (Nat.xor d 4294967295))

/-- The 64 MD5 sine-table constants T\[i] = ⌊|sin(i+1)|·2^32⌋ (RFC 1321). -/
def Ktab : List Nat :=
  [0xd76aa478, 0xe8c7b756, 0x242070db, 0xc1bdceee,
   0xf57c0faf, 0x4787c62a, 0xa8304613, 0xfd469501,
   0x698098d8, 0x8b44f7af, 0xffff5bb1, 0x895cd7be,
   0x6b901122, 0xfd987193, 0xa679438e, 0x49b40821,
   0xf61e2562, 0xc040b340, 0x265e5a51, 0xe9b6c7aa,
   0xd62f105d, 0x02441453, 0xd8a1e681, 0xe7d3fbc8,
   0x21e1cde6, 0xc33707d6, 0xf4d50d87, 0x455a14ed,
   0xa9e3e905, 0xfcefa3f8, 0x676f02d9, 0x8d2a4c8a,
   0xfffa3942, 0x8771f681, 0x6d9d6122, 0xfde5380c,
   0xa4beea44, 0x4bdecfa9, 0xf6bb4b60, 0xbebfbc70,
   0x289b7ec6, 0xeaa127fa, 0xd4ef3085, 0x04881d05,
   0xd9d4d039, 0xe6db99e5, 0x1fa27cf8, 0xc4ac5665,
   0xf4292244, 0x432aff97, 0xab9423a7, 0xfc93a039,
   0x655b59c3, 0x8f0ccc92, 0xffeff47d, 0x85845dd1,
   0x6fa87e4f, 0xfe2ce6e0, 0xa3014314, 0x4e0811a1,
   0xf7537e82, 0xbd3af235, 0x2ad7d2bb, 0xeb86d391]

/-- Per-round left-rotation amounts (RFC 1321). -/
def Stab : List Nat :=
  [7, 12, 17, 22, 7, 12, 17, 22, 7, 12, 17, 22, 7, 12, 17, 22,
   5, 9, 14, 20, 5, 9, 14, 20, 5, 9, 14, 20, 5, 9, 14, 20,
   4, 11, 16, 23, 4, 11, 16, 23, 4, 11, 16, 23, 4, 11, 16, 23,
   6, 10, 15, 21, 6, 10, 15, 21, 6, 10, 15, 21, 6, 10, 15, 21]

/-- One MD5 round `i` (0 ≤ i < 64) on state (A,B,C,D) with message words `M`. -/
def md5round (M : List Nat) (st : Nat × Nat × Nat × Nat) (i : Nat) :
    Nat × Nat × Nat × Nat :=
  let (a, b, c, d) := st
  let f := if i < 16 then mF b c d
           else if i < 32 then mG b c d
           else if i < 48 then mH b c d
           else mI b c d
  let g := if i < 16 then i
           else if i < 32 then (5 * i + 1) % 16
           else if i < 48 then (3 * i + 5) % 16
           else (7 * i) % 16
  let f2 := w32 (f + a + Ktab.getD i 0 + M.getD g 0)
  (d, w32 (b + rotl32 f2 (Stab.getD i 0)), b, c)

/-- Process one 64-byte block. -/
def md5block (st : Nat × Nat × Nat × Nat) (block : List Nat) :
    Nat × Nat × Nat × Nat :=
  let M := (chunksOf 4 block).map leVal
  let r := (List.range 64).foldl (md5round M) st
  (w32 (st.1 + r.1), w32 (st.2.1 + r.2.1), w32 (st.2.2.1 + r.2.2.1),
   w32 (st.2.2.2 + r.2.2.2))

/-- MD5 padding: append 0x80, zeros to 56 mod 64, then the 64-bit
little-endian bit length. -/
def md5pad (msg : List Nat) : List Nat :=
  msg ++ 128 :: List.replicate ((119 - msg.length % 64) % 64) 0
      ++ leBytes 8 (msg.length * 8)

/-- The raw 16-byte MD5 digest of a byte list (`hash.digest()`). -/
def md5Bytes (msg : List Nat) : List Nat :=
  let r := (chunksOf 64 (md5pad msg)).foldl md5block
      (0x67452301, 0xefcdab89, 0x98badcfe, 0x10325476)
  leBytes 4 r.1 ++ leBytes 4 r.2.1 ++ leBytes 4 r.2.2.1 ++ leBytes 4 r.2.2.2

def hexDigit (n : Nat) : Char :=
  if n < 10 then Char.ofNat (48 + n) else Char.ofNat (87 + n)

def hexByte (b : Nat) : String :=
  String.mk [hexDigit (b / 16 % 16), hexDigit (b % 16)]

def hexOfBytes (bs : List Nat) : String := String.join (bs.map hexByte)

/-- The lowercase hex MD5 digest of a byte list (`hash.hexdigest()`). -/
def md5Hex (msg : List Nat) : String := hexOfBytes (md5Bytes msg)

/-! ### Python dicts as association lists

`self.manifest` is a `dict`; we model it as an association list in
insertion order with unique keys maintained by `dictInsert`; `dictGet`
returns the first (hence, on dict-shaped lists, the only) binding. -/

def dictGet (m : List (String × String)) (k : String) : Option String :=
  (m.find? (fun p => p.1 == k)).map (fun p => p.2)

/-- `m.get(k, d)` of Python. -/
def dictGetD (m : List (String × String)) (k d : String) : String :=
  (dictGet m k).getD d

/-- `m[k] = v` of Python: overwrite the binding if `k` is present,
otherwise append a new one. -/
def dictInsert (m : List (String × String)) (k v : String) :
    List (String × String) :=
  if m.any (fun p => p.1 == k) then
    m.map (fun p => if p.1 == k then (k, v) else p)
  else m ++ [(k, v)]

/-! ### The fingerprint engine: `hash_data` and `gen_etag`

`BucketManager.CHUNK_SIZE = 8388608`; `gen_etag(path)` reads the file at
`path` in `CHUNK_SIZE`-byte chunks, collecting one md5 hash object per
chunk.  We model the file by its byte content and a hash object by its
16-byte digest (`hash_data(data).digest()` is `md5Bytes data`,
`.hexdigest()` is `hexOfBytes` of it). -/

def CHUNK_SIZE : Nat := 8388608

/-- `hash_data(data)`: the md5 hash object for `data`, modelled by its
raw digest. -/
def hash_data (data : List Nat) : List Nat := md5Bytes data

/-- `reduce(lambda x, y: x + y, l)` on a list of byte strings (Python's
`reduce` with no initializer folds from the first element). -/
def pyReduceCat : List (List Nat) → List Nat
  | [] => []
  | h :: t => t.foldl (fun x y => x ++ y) h

/-- `gen_etag`, generalized over the chunk size the read loop uses.
The `hashes` list is written out as `(chunksOf chunkSize content).map
hash_data` at each use; `hashes[0]` is `.headD []` (the guard guarantees
one element).  Returns `none` for Python's bare `return` (value `None`). -/
def gen_etag_chunked (chunkSize : Nat) (content : List Nat) : Option String :=
  if ((chunksOf chunkSize content).map hash_data).isEmpty then none
  else if ((chunksOf chunkSize content).map hash_data).length == 1 then
    some ("\"" ++ hexOfBytes (((chunksOf chunkSize content).map hash_data).headD [])
      ++ "\"")
  else
    some ("\"" ++ hexOfBytes
        (hash_data (pyReduceCat ((chunksOf chunkSize content).map hash_data)))
      ++ "-" ++ toString ((chunksOf chunkSize content).map hash_data).length
      ++ "\"")

/-- `gen_etag` as in the source, at `self.CHUNK_SIZE`. -/
def gen_etag (content : List Nat) : Option String :=
  gen_etag_chunked CHUNK_SIZE content

/-! ### `load_manifest`

`load_manifest` iterates the paginated `list_objects_v2` listing and
executes `self.manifest[obj['Key']] = obj['ETag']` for every object of
every page.  Note that it never clears `self.manifest` first.  A page is
modelled by its `Contents` as a list of (Key, ETag) pairs. -/

def load_manifest (manifest : List (String × String))
    (pages : List (List (String × String))) : List (String × String) :=
  pages.foldl
    (fun m page => page.foldl (fun m' obj => dictInsert m' obj.1 obj.2) m)
    manifest

/-! ### `upload_file`

`upload_file(bucket, path, key)` computes the content type from the key,
computes the local etag, and returns early (skips) when
`self.manifest.get(key, '') == etag`; otherwise it calls
`bucket.upload_file`.  In Python a `str` never equals `None`, which
matters when `gen_etag` returned `None` (empty file). -/

/-- Python's `s == o` for a `str` against a `str`-or-`None` value. -/
def pyEqStrOpt (s : String) (o : Option String) : Bool :=
  match o with
  | none => false
  | some t => s == t

/-- Mutable `BucketManager` state visible to `upload_file`. -/
structure BMState where
  manifest : List (String × String)
  deriving DecidableEq

/-- What a call to `upload_file` did. -/
inductive UploadResult where
  | skipped
  | uploaded (path key contentType : String)
  deriving DecidableEq

/-- `upload_file`, over a file's byte content.  `guessType` stands for
`mimetypes.guess_type(key)[0]`; the default is `'text/plain'`.  Returns
the action taken together with the (unchanged) manager state. -/
def upload_file (guessType : String → Option String) (st : BMState)
    (path key : String) (content : List Nat) : UploadResult × BMState :=
  let contentType := (guessType key).getD "text/plain"
  let etag := gen_etag content
  if pyEqStrOpt (dictGetD st.manifest key "") etag then
    (UploadResult.skipped, st)
  else
    (UploadResult.uploaded path key contentType, st)

/-- The pure upload-skip decision of `upload_file` (spec §4.3
`should_upload`): upload unless `manifest.get(key, '')` equals the etag. -/
def should_upload (manifest : List (String × String)) (key : String)
    (etag : Option String) : Bool :=
  !(pyEqStrOpt (dictGetD manifest key "") etag)

/-! ### `init_bucket`

`init_bucket(bucket_name)` calls `self.s3.create_bucket`; on a
`ClientError` whose code is `'BucketAlreadyOwnedByYou'` it executes
`s3_bucket = s3.Bucket(bucket_name)`.  The name `s3` is unbound there —
the module defines no global `s3` and the method only has `self.s3` — so
that statement raises `NameError("name 's3' is not defined")` instead of
producing a bucket handle.  Any other `ClientError` is re-raised. -/

/-- Outcome of the collaborator's `create_bucket` call. -/
inductive CreateOutcome where
  | ok (handle : String)
  | clientError (code : String)
  deriving DecidableEq

/-- Outcome of `init_bucket` as observed by its caller. -/
inductive InitResult where
  | ok (handle : String)
  /-- a `NameError` escaped (the named variable was unbound) -/
  | nameError (name : String)
  /-- the original `ClientError` was re-raised -/
  | raised (code : String)
  deriving DecidableEq

def init_bucket (bucket_name : String) (create : CreateOutcome) : InitResult :=
  match create with
  | CreateOutcome.ok h => InitResult.ok h
  | CreateOutcome.clientError code =>
    if code == "BucketAlreadyOwnedByYou" then
      InitResult.nameError "s3"
    else
      InitResult.raised code

/-! ### Key derivation in `sync`

`sync` uploads each file under key `str(p.relative_to(root))`.
`PurePath.relative_to` drops the root's components; `str()` of a pure
path joins its components with the platform's native separator
(`'/'` on POSIX, `'\'` on Windows) and renders the empty relative path
as `'.'`.  A path is modelled by its list of components. -/

/-- `p.relative_to(root)` on component lists: strip the root prefix
(`none` models the `ValueError` when `root` is not a prefix). -/
def relative_to (pathParts rootParts : List String) :
    Option (List String) :=
  if rootParts.isPrefixOf pathParts then
    some (pathParts.drop rootParts.length)
  else none

/-- `str()` of a relative pure path whose native separator is `sep`. -/
def strOfParts (sep : Char) (parts : List String) : String :=
  if parts.isEmpty then "."
  else String.intercalate (String.singleton sep) parts

/-- The object key `sync` passes to `upload_file` for the file with
components `fileParts`, relative to the resolved root `rootParts`, on a
platform with native separator `sep`. -/
def syncKey (sep : Char) (rootParts fileParts : List String) :
    Option String :=
  (relative_to fileParts rootParts).map (strOfParts sep)

/-! ### The directory walker of `sync`

`handle_directory(target)` iterates `target.iterdir()`; for a directory
entry it recurses, for a file entry it calls
`self.upload_file(bucket, str(p), str(p.relative_to(root)))`.  The tree
(symbolic links not followed) is modelled by `FSEntry`; an upload is
recorded as the pair (key components, file content).  The Lean
definition is total, witnessing termination on every finite tree. -/

inductive FSEntry where
  | file (name : String) (content : List Nat)
  | dir (name : String) (children : List FSEntry)

/-- The body of `handle_directory`, iterating a directory's entries in
`iterdir()` order; `pref` holds the key components accumulated so far
(path relative to the sync root). -/
def handle_directory (pref : List String) :
    List FSEntry → List (List String × List Nat)
  | [] => []
  | FSEntry.dir n cs :: rest =>
    handle_directory (pref ++ [n]) cs ++ handle_directory pref rest
  | FSEntry.file n c :: rest =>
    (pref ++ [n], c) :: handle_directory pref rest

/-- Number of regular files in a forest (spec-side count). -/
def fileCount : List FSEntry → Nat
  | [] => 0
  | FSEntry.file _ _ :: rest => 1 + fileCount rest
  | FSEntry.dir _ cs :: rest => fileCount cs + fileCount rest

/-- Number of regular-file nodes of the forest that sit at relative path
`π` with content `c`, when the forest itself sits under prefix `pref`
(spec-side count of matching files). -/
def fileOccurrences (pref π : List String) (c : List Nat) :
    List FSEntry → Nat
  | [] => 0
  | FSEntry.file n c2 :: rest =>
    (if π = pref ++ [n] ∧ c2 = c then 1 else 0)
      + fileOccurrences pref π c rest
  | FSEntry.dir n cs :: rest =>
    fileOccurrences (pref ++ [n]) π c cs + fileOccurrences pref π c rest

/-! ### Helper lemmas -/

theorem chunksOfF_nil (s : Nat) : ∀ n, chunksOfF s n [] = []
  | 0 => rfl
  | _ + 1 => by simp [chunksOfF]

theorem chunksOf_single {s : Nat} {c : List Nat} (h1 : 0 < c.length)
    (h2 : c.length ≤ s) : chunksOf s c = [c] := by
  obtain ⟨n, hn⟩ : ∃ n, c.length = n + 1 := ⟨c.length - 1, by omega⟩
  have hne : c ≠ [] := by
    intro h
    rw [h] at h1
    exact absurd h1 (by simp)
  unfold chunksOf
  rw [hn]
  unfold chunksOfF
  rw [List.take_of_length_le h2, List.drop_eq_nil_of_le h2]
  simp [hne, chunksOfF_nil]

theorem foldl_append_eq (t : List (List Nat)) :
    ∀ h : List Nat, t.foldl (fun x y => x ++ y) h = h ++ t.flatten := by
  induction t with
  | nil => simp
  | cons a t ih => intro h; simp [ih]

theorem pyReduceCat_eq_flatten : ∀ l : List (List Nat), pyReduceCat l = l.flatten
  | [] => rfl
  | h :: t => by simp [pyReduceCat, foldl_append_eq]

/-- One chunk: `gen_etag` is the quoted hex digest of the whole content. -/
theorem gen_etag_single {s : Nat} {c : List Nat} (h1 : 0 < c.length)
    (h2 : c.length ≤ s) :
    gen_etag_chunked s c = some ("\"" ++ md5Hex c ++ "\"") := by
  unfold gen_etag_chunked
  rw [chunksOf_single h1 h2]
  rfl

/-- Several chunks: `gen_etag` is the quoted hex digest of the
concatenated raw chunk digests, suffixed with the chunk count. -/
theorem gen_etag_multi {s : Nat} {c : List Nat}
    (h : 1 < (chunksOf s c).length) :
    gen_etag_chunked s c =
      some ("\"" ++ md5Hex (((chunksOf s c).map md5Bytes).flatten) ++ "-"
        ++ toString (chunksOf s c).length ++ "\"") := by
  obtain ⟨x, y, t, hl⟩ : ∃ x y t, chunksOf s c = x :: y :: t := by
    rcases hc : chunksOf s c with _ | ⟨x, _ | ⟨y, t⟩⟩
    · rw [hc] at h; exact absurd h (by simp)
    · rw [hc] at h; exact absurd h (by simp)
    · exact ⟨x, y, t, rfl⟩
  have hnot1 : ¬(((x :: y :: t).map hash_data).isEmpty = true) := by simp
  have hnot2 : ¬((((x :: y :: t).map hash_data).length == 1) = true) := by
    simp only [List.map_cons, List.length_cons, beq_iff_eq]
    omega
  unfold gen_etag_chunked
  rw [hl, if_neg hnot1, if_neg hnot2, pyReduceCat_eq_flatten, List.length_map]
  rfl

/-- Any fingerprint `gen_etag` produces starts with a double quote. -/
theorem gen_etag_chunked_quoted {s : Nat} {c : List Nat} {e : String}
    (h : gen_etag_chunked s c = some e) : ∃ t, e = "\"" ++ t := by
  unfold gen_etag_chunked at h
  by_cases h1 : ((chunksOf s c).map hash_data).isEmpty = true
  · rw [if_pos h1] at h
    exact absurd h (by simp)
  · rw [if_neg h1] at h
    by_cases h2 : (((chunksOf s c).map hash_data).length == 1) = true
    · rw [if_pos h2] at h
      have h3 := (Option.some.inj h).symm
      simp only [String.append_assoc] at h3
      exact ⟨_, h3⟩
    · rw [if_neg h2] at h
      have h3 := (Option.some.inj h).symm
      simp only [String.append_assoc] at h3
      exact ⟨_, h3⟩

/-- A double-quote-led string is never the empty string. -/
theorem quoted_ne_blank {t : String} : "\"" ++ t ≠ "" := by
  intro h
  have h2 := congrArg String.data h
  simp [String.data_append] at h2

/-- `find?` with the key predicate, unfolded one association at a time. -/
theorem find?_key_cons (q : String × String) (t : List (String × String))
    (j : String) :
    (q :: t).find? (fun p => p.1 == j)
      = if q.1 == j then some q else t.find? (fun p => p.1 == j) := by
  rw [List.find?_cons]
  cases hq : q.1 == j
  · simp [hq]
  · simp [hq]

theorem find?_map_overwrite_ne (m : List (String × String)) (k v j : String)
    (hjk : j ≠ k) :
    (m.map (fun p => if p.1 == k then (k, v) else p)).find?
        (fun p => p.1 == j)
      = m.find? (fun p => p.1 == j) := by
  induction m with
  | nil => rfl
  | cons p t ih =>
    rw [List.map_cons]
    by_cases hpk : p.1 = k
    · rw [if_pos (beq_iff_eq.mpr hpk)]
      rw [find?_key_cons, find?_key_cons]
      rw [if_neg (fun hb => Ne.symm hjk (beq_iff_eq.mp hb))]
      rw [if_neg (fun hb => Ne.symm hjk (hpk.symm.trans (beq_iff_eq.mp hb)))]
      exact ih
    · rw [if_neg (fun hb => hpk (beq_iff_eq.mp hb))]
      rw [find?_key_cons, find?_key_cons]
      by_cases hpj : (p.1 == j) = true
      · rw [if_pos hpj, if_pos hpj]
      · rw [if_neg hpj, if_neg hpj]
        exact ih

theorem find?_map_overwrite_eq (m : List (String × String)) (k v : String)
    (h : m.any (fun p => p.1 == k) = true) :
    (m.map (fun p => if p.1 == k then (k, v) else p)).find?
        (fun p => p.1 == k)
      = some (k, v) := by
  induction m with
  | nil => simp at h
  | cons p t ih =>
    rw [List.map_cons]
    by_cases hpk : p.1 = k
    · rw [if_pos (beq_iff_eq.mpr hpk)]
      rw [find?_key_cons, if_pos (beq_self_eq_true k)]
    · rw [if_neg (fun hb => hpk (beq_iff_eq.mp hb))]
      have ht : t.any (fun p => p.1 == k) = true := by
        rw [List.any_cons] at h
        rcases Bool.or_eq_true_iff.mp h with hcon | ht
        · exact absurd (beq_iff_eq.mp hcon) hpk
        · exact ht
      rw [find?_key_cons, if_neg (fun hb => hpk (beq_iff_eq.mp hb))]
      exact ih ht

/-- Python dict assignment followed by lookup: the inserted key now maps
to the new value, every other key is untouched. -/
theorem dictGet_dictInsert (m : List (String × String)) (k v j : String) :
    dictGet (dictInsert m k v) j = if j = k then some v else dictGet m j := by
  unfold dictInsert dictGet
  by_cases hany : m.any (fun p => p.1 == k) = true
  · rw [if_pos hany]
    by_cases hjk : j = k
    · subst hjk
      rw [if_pos rfl, find?_map_overwrite_eq m j v hany]
      rfl
    · rw [if_neg hjk, find?_map_overwrite_ne m k v j hjk]
  · rw [if_neg hany]
    have hnone : m.find? (fun p => p.1 == k) = none := by
      rw [List.find?_eq_none]
      intro x hx hcon
      exact hany (List.any_eq_true.mpr ⟨x, hx, hcon⟩)
    by_cases hjk : j = k
    · subst hjk
      rw [if_pos rfl, List.find?_append, hnone]
      rw [find?_key_cons, if_pos (beq_self_eq_true j)]
      rfl
    · rw [if_neg hjk, List.find?_append]
      rw [find?_key_cons, if_neg (fun hb => hjk ((beq_iff_eq.mp hb).symm))]
      rw [List.find?_nil, Option.or_none]

/-- The value the listing reports for key `k`, with a later page/object
overriding an earlier one (in a real listing keys are unique, so this is
simply the listed ETag of `k`, or `none` if `k` is not listed). -/
def lastListed (pages : List (List (String × String))) (k : String) :
    Option String :=
  ((pages.flatten.reverse).find? (fun p => p.1 == k)).map (fun p => p.2)

theorem dictGet_foldl_insert (l : List (String × String)) :
    ∀ (m : List (String × String)) (k : String),
      dictGet (l.foldl (fun m' obj => dictInsert m' obj.1 obj.2) m) k
        = ((l.reverse.find? (fun p => p.1 == k)).map (fun p => p.2)).or
            (dictGet m k) := by
  induction l with
  | nil => intro m k; rfl
  | cons a t ih =>
    intro m k
    rw [List.foldl_cons, ih, dictGet_dictInsert]
    rw [List.reverse_cons, List.find?_append]
    by_cases hk : k = a.1
    · rw [if_pos hk]
      rw [find?_key_cons, if_pos (beq_iff_eq.mpr hk.symm)]
      rcases hf : t.reverse.find? (fun p => p.1 == k) with _ | q
      · rw [hf]; rfl
      · rw [hf]; rfl
    · rw [if_neg hk]
      rw [find?_key_cons, if_neg (fun hb => hk ((beq_iff_eq.mp hb).symm))]
      rw [List.find?_nil]
      rcases hf : t.reverse.find? (fun p => p.1 == k) with _ | q
      · rw [hf]; rfl
      · rw [hf]; rfl

/-- `manifest.get(key, '') == etag` compared against `some fp` for a
nonempty `fp`: the comparison succeeds exactly when the manifest binds
`key` to `fp` (the `''` default can never match). -/
theorem pyEq_getD_some {m : List (String × String)} {k fp : String}
    (hfp : fp ≠ "") :
    pyEqStrOpt (dictGetD m k "") (some fp) = true ↔ dictGet m k = some fp := by
  unfold pyEqStrOpt dictGetD
  rcases hm : dictGet m k with _ | v
  · constructor
    · intro hb
      exact absurd (beq_iff_eq.mp hb).symm hfp
    · intro hcon
      exact Option.noConfusion hcon
  · constructor
    · intro hb
      exact congrArg some (beq_iff_eq.mp hb)
    · intro hsome
      exact beq_iff_eq.mpr (Option.some.inj hsome)

theorem length_handle_directory (pref : List String) (ts : List FSEntry) :
    (handle_directory pref ts).length = fileCount ts := by
  induction pref, ts using handle_directory.induct with
  | case1 pref => simp [handle_directory, fileCount]
  | case2 pref n cs rest ih1 ih2 =>
    simp only [handle_directory, fileCount, List.length_append, ih1, ih2]
  | case3 pref n c rest ih =>
    simp only [handle_directory, fileCount, List.length_cons, ih]
    omega

theorem count_handle_directory (π : List String) (c : List Nat)
    (pref : List String) (ts : List FSEntry) :
    (handle_directory pref ts).count (π, c) = fileOccurrences pref π c ts := by
  induction pref, ts using handle_directory.induct with
  | case1 pref => simp [handle_directory, fileOccurrences]
  | case2 pref n cs rest ih1 ih2 =>
    simp only [handle_directory, fileOccurrences, List.count_append, ih1, ih2]
  | case3 pref n c2 rest ih =>
    simp only [handle_directory, fileOccurrences, List.count_cons, ih]
    by_cases hm : π = pref ++ [n] ∧ c2 = c
    · have he : (pref ++ [n], c2) = (π, c) := by rw [hm.1, hm.2]
      rw [if_pos hm, if_pos (beq_iff_eq.mpr he)]
      omega
    · have he : ¬(((pref ++ [n], c2) == (π, c)) = true) := by
        intro hb
        have hq := beq_iff_eq.mp hb
        rw [Prod.mk.injEq] at hq
        exact hm ⟨hq.1.symm, hq.2⟩
      rw [if_neg hm, if_neg he]
      omega

/-! ### The claims -/

/-- Claim C1: for content that fits in a single chunk (at most the chunk
size, nonempty), `gen_etag` returns the double-quoted hex MD5 digest of
the whole content with no `-count` suffix; for content of `k > 1`
chunks it returns the quoted hex MD5 digest of the concatenation of the
`k` raw 16-byte per-chunk digests in order, followed by `-k`; `gen_etag`
itself is the chunk-size-`CHUNK_SIZE` instance. -/
theorem gen_etag_fingerprint_forms (s : Nat) (c : List Nat) :
    (0 < c.length → c.length ≤ s →
      gen_etag_chunked s c = some ("\"" ++ md5Hex c ++ "\"")) ∧
    (1 < (chunksOf s c).length →
      gen_etag_chunked s c =
        some ("\"" ++ md5Hex (((chunksOf s c).map md5Bytes).flatten) ++ "-"
          ++ toString (chunksOf s c).length ++ "\"")) ∧
    gen_etag c = gen_etag_chunked CHUNK_SIZE c :=
  ⟨fun h1 h2 => gen_etag_single h1 h2, fun h => gen_etag_multi h, rfl⟩

/-- Witness for C1: the five-byte content `hello` is a single chunk and
gets MD5(`hello`) quoted; under chunk size 2 the three bytes `abc` form
two chunks and get the hash-of-hashes with suffix `-2` (values checked
against `hashlib.md5`). -/
theorem gen_etag_fingerprint_forms_witness :
    gen_etag_chunked 8388608 [104, 101, 108, 108, 111]
      = some "\"5d41402abc4b2a76b9719d911017c592\"" ∧
    gen_etag_chunked 2 [97, 98, 99]
      = some "\"d833159094d1d7ad96ffcc78414e3682-2\"" := by
  constructor
  · rw [(gen_etag_fingerprint_forms 8388608 [104, 101, 108, 108, 111]).1
      (by decide) (by decide)]
    decide
  · rw [(gen_etag_fingerprint_forms 2 [97, 98, 99]).2.1 (by decide)]
    decide

/-- Claim C2: for a key whose local fingerprint was computed by
`gen_etag`, `upload_file` skips (returns without uploading) iff the
manifest binds that key to exactly that fingerprint string; a manifest
miss or any differing value uploads. -/
theorem upload_skip_iff_manifest_match (gt : String → Option String)
    (st : BMState) (path key : String) (content : List Nat) (fp : String)
    (h : gen_etag content = some fp) :
    (upload_file gt st path key content).1 = UploadResult.skipped ↔
      dictGet st.manifest key = some fp := by
  obtain ⟨t, ht⟩ := gen_etag_chunked_quoted h
  have hfp : fp ≠ "" := by rw [ht]; exact quoted_ne_blank
  simp only [upload_file]
  rw [h]
  by_cases hc : pyEqStrOpt (dictGetD st.manifest key "") (some fp) = true
  · rw [if_pos hc]
    constructor
    · intro _
      exact (pyEq_getD_some hfp).mp hc
    · intro _
      rfl
  · rw [if_neg hc]
    constructor
    · intro hcon
      exact UploadResult.noConfusion hcon
    · intro hsome
      exact absurd ((pyEq_getD_some hfp).mpr hsome) hc

/-- Witness for C2: with the manifest binding `a.txt` to the quoted MD5
of `hello`, uploading the unchanged `hello` content is skipped. -/
theorem upload_skip_iff_manifest_match_witness :
    (upload_file (fun _ => none)
        ⟨[("a.txt", "\"5d41402abc4b2a76b9719d911017c592\"")]⟩
        "/tmp/web/a.txt" "a.txt" [104, 101, 108, 108, 111]).1
      = UploadResult.skipped :=
  (upload_skip_iff_manifest_match (fun _ => none)
      ⟨[("a.txt", "\"5d41402abc4b2a76b9719d911017c592\"")]⟩
      "/tmp/web/a.txt" "a.txt" [104, 101, 108, 108, 111]
      "\"5d41402abc4b2a76b9719d911017c592\"" (by decide)).mpr (by decide)

/-- Counterexample to C3: `load_manifest` never clears `self.manifest`,
so a pre-existing entry (`a` ↦ `x`) absent from the listing survives the
load — the result is not the listed mapping alone. -/
theorem load_manifest_overwrite_cex :
    load_manifest [("a", "x")] [[("b", "y")]] = [("a", "x"), ("b", "y")] ∧
    load_manifest [("a", "x")] [[("b", "y")]] ≠ [("b", "y")] ∧
    dictGet (load_manifest [("a", "x")] [[("b", "y")]]) "a" = some "x" := by
  refine ⟨by decide, by decide, by decide⟩

/-- Claim C3 as amended: `load_manifest` merges the listing into the
existing in-memory manifest: a listed key ends up bound to its listed
ETag (the last listing occurrence winning), and an entry present before
the load whose key is absent from the listing survives unchanged. -/
theorem load_manifest_merge_semantics (manifest : List (String × String))
    (pages : List (List (String × String))) (k : String) :
    dictGet (load_manifest manifest pages) k
      = (lastListed pages k).or (dictGet manifest k) := by
  unfold load_manifest lastListed
  rw [← List.foldl_flatten]
  exact dictGet_foldl_insert _ _ _

/-- Claim C4, the code bug: when `create_bucket` fails with
`BucketAlreadyOwnedByYou`, `init_bucket` does not return the existing
bucket — the handler's `s3.Bucket(bucket_name)` reads the unbound name
`s3` (only `self.s3` exists) and raises `NameError`; other client
errors are re-raised as the claim says, and success passes the handle
through. -/
theorem init_bucket_owned_name_error :
    init_bucket "assets.example.com"
        (CreateOutcome.clientError "BucketAlreadyOwnedByYou")
      = InitResult.nameError "s3" ∧
    init_bucket "assets.example.com"
        (CreateOutcome.clientError "AccessDenied")
      = InitResult.raised "AccessDenied" ∧
    init_bucket "assets.example.com" (CreateOutcome.ok "assets.example.com")
      = InitResult.ok "assets.example.com" :=
  ⟨by decide, by decide, rfl⟩

/-- Counterexample to C5: `sync` passes `str(p.relative_to(root))`,
which joins components with the platform's native separator; with a
backslash separator the key for `<root>/sub/dir/page.html` is
`sub\dir\page.html`, not the claimed forward-slash form. -/
theorem sync_key_separator_cex :
    syncKey '\\' ["home", "user", "web"]
        ["home", "user", "web", "sub", "dir", "page.html"]
      = some "sub\\dir\\page.html" ∧
    ("sub\\dir\\page.html" : String) ≠ "sub/dir/page.html" := by
  refine ⟨by decide, by decide⟩

/-- Claim C5 as amended: the object key is the file's path relative to
the resolved sync root joined with the platform's native separator
character (no normalization is applied); on a platform whose native
separator is `/` — the only case the reference tool was run on — a file
at `<root>/sub/dir/page.html` yields key `sub/dir/page.html`. -/
theorem sync_key_native_separator (sep : Char)
    (rootParts relParts : List String) (h : relParts ≠ []) :
    syncKey sep rootParts (rootParts ++ relParts)
      = some (String.intercalate (String.singleton sep) relParts) := by
  unfold syncKey relative_to
  have hp : rootParts.isPrefixOf (rootParts ++ relParts) = true :=
    List.isPrefixOf_iff_prefix.mpr (List.prefix_append rootParts relParts)
  rw [if_pos hp, List.drop_left, Option.map_some']
  unfold strOfParts
  rw [if_neg (fun hb => h (List.isEmpty_iff.mp hb))]

/-- Witness for C5 (amended): with separator `/` the file at
`<root>/sub/dir/page.html` yields key `sub/dir/page.html`. -/
theorem sync_key_native_separator_witness :
    syncKey '/' ["home", "user", "web"]
        (["home", "user", "web"] ++ ["sub", "dir", "page.html"])
      = some "sub/dir/page.html" := by
  rw [sync_key_native_separator '/' ["home", "user", "web"]
    ["sub", "dir", "page.html"] (by decide)]
  decide

/-- Claim C6: a zero-byte file yields no fingerprint (`gen_etag` returns
`None`), and `upload_file` treats that as differing from every manifest
entry — the comparison `manifest.get(key, '') == None` is false in
Python — so an empty file is uploaded on every run, whatever the
manifest holds for its key. -/
theorem empty_file_always_uploaded :
    gen_etag [] = none ∧
    ∀ (gt : String → Option String) (st : BMState) (path key : String),
      (upload_file gt st path key []).1
        = UploadResult.uploaded path key ((gt key).getD "text/plain") :=
  ⟨rfl, fun _ _ _ _ => rfl⟩

/-- Claim C7: `gen_etag` is deterministic — equal content and equal
chunk size give equal fingerprints across two computations. -/
theorem gen_etag_deterministic (s1 s2 : Nat) (c1 c2 : List Nat)
    (hs : s1 = s2) (hc : c1 = c2) :
    gen_etag_chunked s1 c1 = gen_etag_chunked s2 c2 := by
  rw [hs, hc]

/-- Witness for C7 at a concrete content and chunk size. -/
theorem gen_etag_deterministic_witness :
    gen_etag_chunked 4 [1, 2, 3] = gen_etag_chunked 4 [1, 2, 3] :=
  gen_etag_deterministic 4 4 [1, 2, 3] [1, 2, 3] rfl rfl

/-- Claim C8: `upload_file` never mutates the `BucketManager` state — in
particular the manifest is unchanged whether the upload is skipped or
performed; only `load_manifest` writes the manifest. -/
theorem upload_file_frame (gt : String → Option String) (st : BMState)
    (path key : String) (content : List Nat) :
    (upload_file gt st path key content).2 = st := by
  simp only [upload_file]
  by_cases hc : pyEqStrOpt (dictGetD st.manifest key "")
      (gen_etag content) = true
  · rw [if_pos hc]
  · rw [if_neg hc]

/-- Claim C9: the recursive traversal of `sync` is total (the Lean
definition `handle_directory` is terminating on every finite tree, with
symbolic links not represented), uploads exactly one object per regular
file — the number of uploads equals the file count, and each
(key, content) pair is uploaded exactly as many times as there are file
nodes bearing it — and directories contribute no uploads. -/
theorem sync_traversal_complete (pref : List String) (ts : List FSEntry) :
    (handle_directory pref ts).length = fileCount ts ∧
    ∀ (π : List String) (c : List Nat),
      (handle_directory pref ts).count (π, c) = fileOccurrences pref π c ts :=
  ⟨length_handle_directory pref ts, fun π c => count_handle_directory π c pref ts⟩

/-- Claim C10: every fingerprint `gen_etag` actually returns is a
nonempty string starting with a double quote, so the `''` default of
`manifest.get(key, '')` never equals a real fingerprint and a key
missing from the manifest always uploads (whatever the content,
including the empty-content `None` case). -/
theorem fingerprint_quoted_manifest_miss_uploads :
    (∀ (c : List Nat) (e : String), gen_etag c = some e →
      e ≠ "" ∧ ∃ t, e = "\"" ++ t) ∧
    (∀ (gt : String → Option String) (st : BMState) (path key : String)
      (c : List Nat), dictGet st.manifest key = none →
      (upload_file gt st path key c).1 ≠ UploadResult.skipped) := by
  constructor
  · intro c e h
    obtain ⟨t, ht⟩ := gen_etag_chunked_quoted h
    exact ⟨by rw [ht]; exact quoted_ne_blank, ⟨t, ht⟩⟩
  · intro gt st path key c hm
    simp only [upload_file]
    rcases hg : gen_etag c with _ | e
    · simp [pyEqStrOpt]
    · obtain ⟨t, ht⟩ := gen_etag_chunked_quoted hg
      have hfp : e ≠ "" := by rw [ht]; exact quoted_ne_blank
      have hfalse : pyEqStrOpt (dictGetD st.manifest key "") (some e) = false := by
        unfold pyEqStrOpt dictGetD
        rw [hm]
        rw [beq_eq_false_iff_ne]
        exact fun hh => hfp hh.symm
      rw [hfalse]
      simp

/-- Witness for C10: the fingerprint of `hello` is quoted and nonempty,
and uploading `hello` against an empty manifest is not skipped. -/
theorem fingerprint_quoted_manifest_miss_uploads_witness :
    ("\"5d41402abc4b2a76b9719d911017c592\"" ≠ "" ∧
      ∃ t, "\"5d41402abc4b2a76b9719d911017c592\"" = "\"" ++ t) ∧
    (upload_file (fun _ => none) ⟨[]⟩ "/tmp/web/a.txt" "a.txt"
        [104, 101, 108, 108, 111]).1 ≠ UploadResult.skipped :=
  ⟨fingerprint_quoted_manifest_miss_uploads.1 [104, 101, 108, 108, 111]
      "\"5d41402abc4b2a76b9719d911017c592\"" (by decide),
    fingerprint_quoted_manifest_miss_uploads.2 (fun _ => none) ⟨[]⟩
      "/tmp/web/a.txt" "a.txt" [104, 101, 108, 108, 111] (by decide)⟩

end Webotron
